import Mathlib

/-!
Shallow embedding of `src/src/aslam_demo/mapping/probability_map.cpp`
(class `mapping::ProbabilityMap`), a log-odds occupancy grid map.

C++ `double` arithmetic is modelled by the real numbers `ℝ`; machine
integers (`int`, `size_t` indices) by `ℤ` and `ℕ`.  The dense
`gtsam::Matrix` backing store becomes a total function `ℤ → ℤ → ℝ`
whose values at in-range indices model the matrix entries.  The C++
exceptions thrown by `at` / `update` / `interpolate` (a single kind:
the out-of-bounds `std::runtime_error`) are modelled with `Except` /
`Option` error values; `update`, which mutates, returns the post-state
map together with the optional error, mirroring that the C++ throw
happens before any mutation.
-/

namespace Mapping

/-- `gtsam::Point2`: a 2-D point, `.1` = x, `.2` = y. -/
abbrev Point2 : Type := ℝ × ℝ

/-- The single error kind of the map: the out-of-bounds
`std::runtime_error` thrown by `at`, `update` and `interpolate`. -/
inductive MapError where
  | outOfBounds
deriving DecidableEq

/-- The `ProbabilityMap` class state: dimensions, cell size, origin and
the dense log-odds matrix `data_` (modelled as a total function; only
indices with `0 ≤ row < rows`, `0 ≤ col < cols` are meaningful). -/
structure ProbabilityMap where
  rows : ℕ
  cols : ℕ
  cellSize : ℝ
  origin : Point2
  data : ℤ → ℤ → ℝ

/-- `ProbabilityMap::MAX_LOG_ODDS = 50.0`. -/
def MAX_LOG_ODDS : ℝ := 50

/-- `ProbabilityMap::LogOddsToProbability`: `odds = exp l; odds / (1 + odds)`. -/
noncomputable def LogOddsToProbability (logOdds : ℝ) : ℝ :=
  let odds := Real.exp logOdds
  odds / (1 + odds)

/-- `ProbabilityMap::ProbabilityToLogOdds`: `odds = p / (1 - p); log odds`. -/
noncomputable def ProbabilityToLogOdds (probability : ℝ) : ℝ :=
  let odds := probability / (1 - probability)
  Real.log odds

/-- The constructor `ProbabilityMap(rows, cols, cell_size, origin)`:
`data_ = gtsam::Matrix::Zero(rows, cols)` (all log-odds 0). -/
def probabilityMapInit (rows cols : ℕ) (cellSize : ℝ) (origin : Point2) :
    ProbabilityMap :=
  ⟨rows, cols, cellSize, origin, fun _ _ => 0⟩

/-- `ProbabilityMap::inside(int row, int col)`:
`row >= 0 && row < rows() && col >= 0 && col < cols()`. -/
def ProbabilityMap.inside (m : ProbabilityMap) (row col : ℤ) : Bool :=
  decide (0 ≤ row) && decide (row < (m.rows : ℤ))
    && decide (0 ≤ col) && decide (col < (m.cols : ℤ))

/-- `ProbabilityMap::at(int row, int col)`: out-of-bounds check, then
`LogOddsToProbability(data_(row, col))`.  (`at` is a Lean keyword, hence
the name `atCell`.) -/
noncomputable def ProbabilityMap.atCell (m : ProbabilityMap) (row col : ℤ) :
    Except MapError ℝ :=
  if m.inside row col then
    Except.ok (LogOddsToProbability (m.data row col))
  else
    Except.error MapError.outOfBounds

/-- Modelled from the spec: the continuous-point overload
`ProbabilityMap::inside(const gtsam::Point2&)` used by `interpolate` is
declared in the header `probability_map.h`, which is not among the
sources.  The spec: `interpolate` "fails with OutOfBounds if the point
is outside `[0,rows) × [0,cols)` (continuous test using the same
`inside` boundary rule applied to the point's components)".  Row is the
y component, col the x component. -/
def ProbabilityMap.insidePoint (m : ProbabilityMap) (p : Point2) : Prop :=
  0 ≤ p.2 ∧ p.2 < (m.rows : ℝ) ∧ 0 ≤ p.1 ∧ p.1 < (m.cols : ℝ)

noncomputable instance (m : ProbabilityMap) (p : Point2) :
    Decidable (m.insidePoint p) :=
  inferInstanceAs (Decidable (_ ∧ _ ∧ _ ∧ _))

/-- `ProbabilityMap::interpolate(const gtsam::Point2&)`: bounds check on
the continuous point, edge-clamped selection of the 2×2 neighbour
quartet, then bilinear blend of the four `at` values.  The C++ `int`
variables `x1,x2,y1,y2` are `ℤ`; `cols() - 2` on a 1-column map yields
`-1` exactly as the C++ int conversion does on real platforms. -/
noncomputable def ProbabilityMap.interpolate (m : ProbabilityMap) (p : Point2) :
    Except MapError ℝ :=
  if ¬ m.insidePoint p then Except.error MapError.outOfBounds
  else
    let x1 : ℤ := if ⌊p.1⌋ ≥ (m.cols : ℤ) - 1 then (m.cols : ℤ) - 2 else ⌊p.1⌋
    let x2 : ℤ := if ⌊p.1⌋ ≥ (m.cols : ℤ) - 1 then (m.cols : ℤ) - 1 else ⌊p.1⌋ + 1
    let y1 : ℤ := if ⌊p.2⌋ ≥ (m.rows : ℤ) - 1 then (m.rows : ℤ) - 2 else ⌊p.2⌋
    let y2 : ℤ := if ⌊p.2⌋ ≥ (m.rows : ℤ) - 1 then (m.rows : ℤ) - 1 else ⌊p.2⌋ + 1
    let dx21 : ℝ := (x2 : ℝ) - (x1 : ℝ)
    let dx2p : ℝ := (x2 : ℝ) - p.1
    let dxp1 : ℝ := p.1 - (x1 : ℝ)
    let dy21 : ℝ := (y2 : ℝ) - (y1 : ℝ)
    let dy2p : ℝ := (y2 : ℝ) - p.2
    let dyp1 : ℝ := p.2 - (y1 : ℝ)
    do
      let a11 ← m.atCell y1 x1
      let a12 ← m.atCell y1 x2
      let a21 ← m.atCell y2 x1
      let a22 ← m.atCell y2 x2
      let R1 := (dx2p / dx21) * a11 + (dxp1 / dx21) * a12
      let R2 := (dx2p / dx21) * a21 + (dxp1 / dx21) * a22
      return (dy2p / dy21) * R1 + (dyp1 / dy21) * R2

/-- `ProbabilityMap::update(int row, int col, double probability)`:
bounds check (throw happens before any mutation), add
`ProbabilityToLogOdds(probability)` to the cell, clamp to
`±MAX_LOG_ODDS`.  Returns the post-state map and the optional error. -/
noncomputable def ProbabilityMap.update (m : ProbabilityMap) (row col : ℤ)
    (probability : ℝ) : ProbabilityMap × Option MapError :=
  if m.inside row col then
    let v0 := m.data row col + ProbabilityToLogOdds probability
    let v1 := if v0 > MAX_LOG_ODDS then MAX_LOG_ODDS else v0
    let v2 := if v1 < -MAX_LOG_ODDS then -MAX_LOG_ODDS else v1
    ({ m with data := fun r c => if r = row ∧ c = col then v2 else m.data r c },
     none)
  else
    (m, some MapError.outOfBounds)

/-- A sequence of `update` calls, each applied to the post-state of the
previous one (an out-of-bounds call leaves the state unchanged, as the
C++ throw precedes the mutation). -/
noncomputable def ProbabilityMap.runUpdates (m : ProbabilityMap) :
    List (ℤ × ℤ × ℝ) → ProbabilityMap
  | [] => m
  | op :: ops => ((m.update op.1 op.2.1 op.2.2).1).runUpdates ops

/-- `ProbabilityMap::toWorld`: `cell_size_ * map_coordinates + origin_`. -/
noncomputable def ProbabilityMap.toWorld (m : ProbabilityMap) (p : Point2) :
    Point2 :=
  (m.cellSize * p.1 + m.origin.1, m.cellSize * p.2 + m.origin.2)

/-- `ProbabilityMap::fromWorld`: `(world_coordinates - origin_) / cell_size_`. -/
noncomputable def ProbabilityMap.fromWorld (m : ProbabilityMap) (p : Point2) :
    Point2 :=
  ((p.1 - m.origin.1) / m.cellSize, (p.2 - m.origin.2) / m.cellSize)

/-- `ProbabilityMap::findIntersections`: ray/AABB intersection.
`direction = start.between(end).unit()` (the normalized difference);
the IEEE infinities produced by `1/0` on axis-aligned rays are modelled
by Lean's `x / 0 = 0` convention — no claim below depends on the
entry/exit coordinates this routine produces. -/
noncomputable def findIntersections (startPoint endPoint lowerLeft upperRight :
    Point2) : Point2 × Point2 :=
  let diff : Point2 := (endPoint.1 - startPoint.1, endPoint.2 - startPoint.2)
  let norm := Real.sqrt (diff.1 ^ 2 + diff.2 ^ 2)
  let direction : Point2 := (diff.1 / norm, diff.2 / norm)
  let directionInverse : Point2 := (1 / direction.1, 1 / direction.2)
  let t1 := (lowerLeft.1 - startPoint.1) * directionInverse.1
  let t2 := (upperRight.1 - startPoint.1) * directionInverse.1
  let t3 := (lowerLeft.2 - startPoint.2) * directionInverse.2
  let t4 := (upperRight.2 - startPoint.2) * directionInverse.2
  let tmin := max (min t1 t2) (min t3 t4)
  let tmax := min (max t1 t2) (max t3 t4)
  ((startPoint.1 + tmin * direction.1, startPoint.2 + tmin * direction.2),
   (startPoint.1 + tmax * direction.1, startPoint.2 + tmax * direction.2))

/-- `ProbabilityMap::LineCell`: a rasterized cell `{row, col, start, end}`
with the beam's world-space entry (`start`) and exit (`endPoint`, named
`end` in C++ — a Lean keyword) points. -/
structure LineCell where
  row : ℤ
  col : ℤ
  start : Point2
  endPoint : Point2

/-- Step (a)+(b) of the loop body of `ProbabilityMap::line`: floor the
current continuous map point to a cell `(v, u)`; if the cell is inside,
emit one `LineCell` annotated with the AABB intersections of the beam
with that cell's world-space box; otherwise emit nothing. -/
noncomputable def ProbabilityMap.lineEmit (m : ProbabilityMap)
    (startWorld endWorld : Point2) (point : Point2) : List LineCell :=
  let u : ℤ := ⌊point.1⌋
  let v : ℤ := ⌊point.2⌋
  if m.inside v u then
    let boxMin := m.toWorld ((u : ℝ), (v : ℝ))
    let boxMax := m.toWorld ((u : ℝ) + 1, (v : ℝ) + 1)
    let inter := findIntersections startWorld endWorld boxMin boxMax
    [⟨v, u, inter.1, inter.2⟩]
  else []

/-- The `while(true)` loop of `ProbabilityMap::line`: emit the current
cell when inside, break once `increments_remaining ≤ 0`, otherwise
advance by `min(1, remaining)` along `delta` and recurse.  The `fuel`
argument is only a structural-termination bound; `lineLoop_fuel` below
shows any fuel of at least `⌈remaining⌉ + 1` gives the loop's result. -/
noncomputable def ProbabilityMap.lineLoop (m : ProbabilityMap)
    (startWorld endWorld delta : Point2) :
    ℕ → Point2 → ℝ → List LineCell
  | 0, _, _ => []
  | fuel + 1, point, remaining =>
    m.lineEmit startWorld endWorld point ++
      (if remaining ≤ 0 then []
       else
         let increment := if remaining < 1 then remaining else 1
         m.lineLoop startWorld endWorld delta fuel
           (point.1 + increment * delta.1, point.2 + increment * delta.2)
           (remaining - increment))

/-- `ProbabilityMap::line`: convert the endpoints to map coordinates,
build the dominant-axis unit step `delta` and the dominant span
`increments_remaining`, then run the rasterization loop. -/
noncomputable def ProbabilityMap.line (m : ProbabilityMap)
    (startWorld endWorld : Point2) : List LineCell :=
  let startMap := m.fromWorld startWorld
  let endMap := m.fromWorld endWorld
  let dx := |endMap.1 - startMap.1|
  let sx : ℝ := if startMap.1 < endMap.1 then 1 else -1
  let dy := |endMap.2 - startMap.2|
  let sy : ℝ := if startMap.2 < endMap.2 then 1 else -1
  let delta : Point2 := if dx > dy then (sx, sy * (dy / dx)) else (sx * (dx / dy), sy)
  let remaining := if dx > dy then dx else dy
  m.lineLoop startWorld endWorld delta (⌈remaining⌉.toNat + 1) startMap remaining

/-- The sequence of continuous map points the loop of
`ProbabilityMap::line` visits: the same iteration structure as
`lineLoop`, recording every visited point whether or not its cell is
inside the grid.  It mentions no grid bound at all. -/
noncomputable def lineVisited (delta : Point2) :
    ℕ → Point2 → ℝ → List Point2
  | 0, _, _ => []
  | fuel + 1, point, remaining =>
    point ::
      (if remaining ≤ 0 then []
       else
         let increment := if remaining < 1 then remaining else 1
         lineVisited delta fuel
           (point.1 + increment * delta.1, point.2 + increment * delta.2)
           (remaining - increment))

/-- The dominant-axis span of a beam: `line`'s `increments_remaining`. -/
noncomputable def ProbabilityMap.dominantSpan (m : ProbabilityMap)
    (startWorld endWorld : Point2) : ℝ :=
  let startMap := m.fromWorld startWorld
  let endMap := m.fromWorld endWorld
  let dx := |endMap.1 - startMap.1|
  let dy := |endMap.2 - startMap.2|
  if dx > dy then dx else dy

/-- `line`'s step vector `delta`. -/
noncomputable def ProbabilityMap.lineDelta (m : ProbabilityMap)
    (startWorld endWorld : Point2) : Point2 :=
  let startMap := m.fromWorld startWorld
  let endMap := m.fromWorld endWorld
  let dx := |endMap.1 - startMap.1|
  let sx : ℝ := if startMap.1 < endMap.1 then 1 else -1
  let dy := |endMap.2 - startMap.2|
  let sy : ℝ := if startMap.2 < endMap.2 then 1 else -1
  if dx > dy then (sx, sy * (dy / dx)) else (sx * (dx / dy), sy)

/-- The full trajectory of map points `line` walks for a pair of world
endpoints. -/
noncomputable def ProbabilityMap.lineTrajectory (m : ProbabilityMap)
    (startWorld endWorld : Point2) : List Point2 :=
  lineVisited (m.lineDelta startWorld endWorld)
    (⌈m.dominantSpan startWorld endWorld⌉.toNat + 1)
    (m.fromWorld startWorld) (m.dominantSpan startWorld endWorld)

/-- The C-style `(int)` cast of a `double`: truncation toward zero. -/
noncomputable def cppTruncToInt (x : ℝ) : ℤ :=
  if 0 ≤ x then ⌊x⌋ else ⌈x⌉

/-- `ProbabilityMap::occupancyGrid()`: the `rows × cols` byte matrix
with entry `(int)(255 - 255.0 * LogOddsToProbability(data_(row, col)))`. -/
noncomputable def ProbabilityMap.occupancyGrid (m : ProbabilityMap) :
    List (List ℤ) :=
  (List.range m.rows).map fun (row : ℕ) =>
    (List.range m.cols).map fun (col : ℕ) =>
      cppTruncToInt (255 - 255 * LogOddsToProbability (m.data (row : ℤ) (col : ℤ)))

/-- The occupancy-grid byte formula exactly as the spec words it (for
comparison with `ProbabilityMap.occupancyGrid`, which embeds the code):
"each cell becomes `255 − round(255 × probability)`". -/
noncomputable def occupancyGridSpecFormula (m : ProbabilityMap) :
    List (List ℤ) :=
  (List.range m.rows).map fun (row : ℕ) =>
    (List.range m.cols).map fun (col : ℕ) =>
      255 - round (255 * LogOddsToProbability (m.data (row : ℤ) (col : ℤ)))

/-! ## Basic facts about the probability/log-odds conversions -/

theorem LogOddsToProbability_zero : LogOddsToProbability 0 = 1 / 2 := by
  simp [LogOddsToProbability, Real.exp_zero]
  norm_num

theorem ProbabilityToLogOdds_half : ProbabilityToLogOdds 0.5 = 0 := by
  simp only [ProbabilityToLogOdds]
  norm_num

theorem LogOddsToProbability_pos (l : ℝ) : 0 < LogOddsToProbability l := by
  simp only [LogOddsToProbability]
  positivity

theorem LogOddsToProbability_lt_one (l : ℝ) : LogOddsToProbability l < 1 := by
  simp only [LogOddsToProbability]
  rw [div_lt_one (by positivity)]
  linarith [Real.exp_pos l]

/-! ## The clamp invariant (C1) -/

theorem ProbabilityMap.update_data_bounds (m : ProbabilityMap) (row col : ℤ)
    (p : ℝ)
    (h : ∀ r c, -MAX_LOG_ODDS ≤ m.data r c ∧ m.data r c ≤ MAX_LOG_ODDS) :
    ∀ r c, -MAX_LOG_ODDS ≤ (m.update row col p).1.data r c ∧
      (m.update row col p).1.data r c ≤ MAX_LOG_ODDS := by
  intro r c
  have h50 : (0 : ℝ) < MAX_LOG_ODDS := by norm_num [MAX_LOG_ODDS]
  have hb := h r c
  unfold ProbabilityMap.update
  dsimp only
  split_ifs <;> dsimp only <;> (try split_ifs) <;>
    first
      | exact hb
      | constructor <;> linarith

/-- C1: starting from a freshly constructed map, after any sequence of
`update` calls every stored log-odds value lies in
`[-MAX_LOG_ODDS, MAX_LOG_ODDS] = [-50, 50]` (the statement holds for
every cell and every sequence, in particular for in-bounds updates with
`0 < probability < 1` after each prefix of the sequence). -/
theorem C1_log_odds_clamped (rows cols : ℕ) (cellSize : ℝ) (origin : Point2)
    (ops : List (ℤ × ℤ × ℝ)) (r c : ℤ) :
    -MAX_LOG_ODDS ≤
        ((probabilityMapInit rows cols cellSize origin).runUpdates ops).data r c ∧
      ((probabilityMapInit rows cols cellSize origin).runUpdates ops).data r c ≤
        MAX_LOG_ODDS := by
  have key : ∀ (ops : List (ℤ × ℤ × ℝ)) (m : ProbabilityMap),
      (∀ r c, -MAX_LOG_ODDS ≤ m.data r c ∧ m.data r c ≤ MAX_LOG_ODDS) →
      ∀ r c, -MAX_LOG_ODDS ≤ (m.runUpdates ops).data r c ∧
        (m.runUpdates ops).data r c ≤ MAX_LOG_ODDS := by
    intro ops
    induction ops with
    | nil => intro m hm; exact hm
    | cons op ops ih =>
      intro m hm
      exact ih _ (m.update_data_bounds op.1 op.2.1 op.2.2 hm)
  refine key ops _ (fun r c => ?_) r c
  simp only [probabilityMapInit]
  norm_num [MAX_LOG_ODDS]

/-! ## Atomicity of `update` on out-of-bounds errors (C8) -/

/-- C8: an out-of-bounds `update` raises `OutOfBounds` and leaves the
whole map state (cells, origin, cell size) exactly unchanged, because
the bounds-check throw happens before any mutation. -/
theorem C8_update_atomic_on_error (m : ProbabilityMap) (row col : ℤ) (p : ℝ)
    (h : m.inside row col = false) :
    m.update row col p = (m, some MapError.outOfBounds) := by
  unfold ProbabilityMap.update
  simp [h]

theorem C8_update_atomic_on_error_witness :
    (probabilityMapInit 1 1 1 (0, 0)).update (-1) 0 (9 / 10) =
      (probabilityMapInit 1 1 1 (0, 0), some MapError.outOfBounds) :=
  C8_update_atomic_on_error _ (-1) 0 (9 / 10) (by decide)

/-! ## `update` with probability one half is the identity (C10) -/

/-- C10: for an in-bounds cell whose stored log-odds lies within the
clamp range, `update(row, col, 0.5)` leaves the map exactly unchanged:
`ProbabilityToLogOdds 0.5 = log 1 = 0` is added and neither clamp
branch fires. -/
theorem C10_update_half_identity (m : ProbabilityMap) (row col : ℤ)
    (hin : m.inside row col = true)
    (hlo : -MAX_LOG_ODDS ≤ m.data row col)
    (hhi : m.data row col ≤ MAX_LOG_ODDS) :
    m.update row col 0.5 = (m, none) := by
  unfold ProbabilityMap.update
  rw [if_pos hin]
  dsimp only
  rw [ProbabilityToLogOdds_half, add_zero]
  rw [if_neg (show ¬ m.data row col > MAX_LOG_ODDS by linarith)]
  rw [if_neg (show ¬ m.data row col < -MAX_LOG_ODDS by linarith)]
  have hdata : (fun r c => if r = row ∧ c = col then m.data row col
      else m.data r c) = m.data := by
    funext r c
    by_cases hrc : r = row ∧ c = col
    · rw [if_pos hrc, hrc.1, hrc.2]
    · rw [if_neg hrc]
  rw [hdata]

theorem C10_update_half_identity_witness :
    (probabilityMapInit 1 1 1 (0, 0)).update 0 0 0.5 =
      (probabilityMapInit 1 1 1 (0, 0), none) :=
  C10_update_half_identity _ 0 0 (by decide)
    (by norm_num [probabilityMapInit, MAX_LOG_ODDS])
    (by norm_num [probabilityMapInit, MAX_LOG_ODDS])

/-! ## Accessor lemmas -/

theorem ProbabilityMap.inside_iff (m : ProbabilityMap) (row col : ℤ) :
    m.inside row col = true ↔
      0 ≤ row ∧ row < (m.rows : ℤ) ∧ 0 ≤ col ∧ col < (m.cols : ℤ) := by
  simp [ProbabilityMap.inside, and_assoc]

theorem ProbabilityMap.atCell_of_inside (m : ProbabilityMap) (row col : ℤ)
    (h : m.inside row col = true) :
    m.atCell row col = Except.ok (LogOddsToProbability (m.data row col)) := by
  unfold ProbabilityMap.atCell
  rw [if_pos h]

theorem ProbabilityMap.atCell_of_outside (m : ProbabilityMap) (row col : ℤ)
    (h : m.inside row col = false) :
    m.atCell row col = Except.error MapError.outOfBounds := by
  unfold ProbabilityMap.atCell
  rw [if_neg (by simp [h])]

theorem LogOddsToProbability_log (x : ℝ) (hx : 0 < x) :
    LogOddsToProbability (Real.log x) = x / (1 + x) := by
  simp [LogOddsToProbability, Real.exp_log hx]

theorem ProbabilityToLogOdds_point_nine :
    ProbabilityToLogOdds 0.9 = Real.log 9 := by
  simp only [ProbabilityToLogOdds]
  norm_num

/-! ## Scenario A: a single update touches exactly one cell (C7) -/

/-- C7: on a fresh 3×3 grid (`cellSize = 1`, `origin = (0,0)`, all cells
probability 0.5), after `update(1, 1, 0.9)` the cell `(1,1)` reads the
probability `9/10 > 1/2` while every other in-bounds cell still reads
exactly `1/2`. -/
theorem C7_scenario_single_update (r c : ℤ) (h0 : 0 ≤ r) (h1 : r < 3)
    (h2 : 0 ≤ c) (h3 : c < 3) (hne : ¬(r = 1 ∧ c = 1)) :
    (((probabilityMapInit 3 3 1 (0, 0)).update 1 1 0.9).1.atCell 1 1 =
        Except.ok (9 / 10) ∧ (1 / 2 : ℝ) < 9 / 10) ∧
      ((probabilityMapInit 3 3 1 (0, 0)).update 1 1 0.9).1.atCell r c =
        Except.ok (1 / 2) := by
  have hlog9_pos : 0 < Real.log 9 := Real.log_pos (by norm_num)
  have hlog9_lt : Real.log 9 < MAX_LOG_ODDS := by
    have h9 := Real.log_le_self (show (0 : ℝ) ≤ 9 by norm_num)
    have : MAX_LOG_ODDS = 50 := rfl
    linarith
  have hupd : ((probabilityMapInit 3 3 1 (0, 0)).update 1 1 0.9).1 =
      ProbabilityMap.mk 3 3 1 (0, 0)
        (fun r c => if r = 1 ∧ c = 1 then Real.log 9 else 0) := by
    unfold ProbabilityMap.update
    rw [if_pos (by decide)]
    dsimp only [probabilityMapInit]
    rw [ProbabilityToLogOdds_point_nine, zero_add]
    rw [if_neg (show ¬ Real.log 9 > MAX_LOG_ODDS by linarith)]
    rw [if_neg (show ¬ Real.log 9 < -MAX_LOG_ODDS by linarith)]
  rw [hupd]
  refine ⟨⟨?_, by norm_num⟩, ?_⟩
  · rw [ProbabilityMap.atCell_of_inside _ 1 1 (by decide)]
    simp only [and_self, if_true]
    rw [LogOddsToProbability_log 9 (by norm_num)]
    norm_num
  · rw [ProbabilityMap.atCell_of_inside _ r c
      ((ProbabilityMap.inside_iff _ r c).2 ⟨h0, by exact_mod_cast h1, h2,
        by exact_mod_cast h3⟩)]
    dsimp only
    rw [if_neg hne, LogOddsToProbability_zero]

theorem C7_scenario_single_update_witness :
    (((probabilityMapInit 3 3 1 (0, 0)).update 1 1 0.9).1.atCell 1 1 =
        Except.ok (9 / 10) ∧ (1 / 2 : ℝ) < 9 / 10) ∧
      ((probabilityMapInit 3 3 1 (0, 0)).update 1 1 0.9).1.atCell 0 2 =
        Except.ok (1 / 2) :=
  C7_scenario_single_update 0 2 (by decide) (by decide) (by decide) (by decide)
    (by decide)

/-! ## Interpolation lemmas -/

theorem ProbabilityMap.inside_eq_false_iff (m : ProbabilityMap) (row col : ℤ) :
    m.inside row col = false ↔
      ¬(0 ≤ row ∧ row < (m.rows : ℤ) ∧ 0 ≤ col ∧ col < (m.cols : ℤ)) := by
  rw [← ProbabilityMap.inside_iff]
  cases m.inside row col <;> simp

theorem ProbabilityMap.interpolate_of_outside (m : ProbabilityMap) (p : Point2)
    (h : ¬ m.insidePoint p) :
    m.interpolate p = Except.error MapError.outOfBounds := by
  unfold ProbabilityMap.interpolate
  rw [if_pos h]

/-- Evaluation of `interpolate` once the four neighbour indices are in
bounds: the result is the bilinear blend of the four `at` values. -/
theorem ProbabilityMap.interpolate_eval (m : ProbabilityMap) (p : Point2)
    (x1 x2 y1 y2 : ℤ)
    (hin : m.insidePoint p)
    (hx1 : x1 = if ⌊p.1⌋ ≥ (m.cols : ℤ) - 1 then (m.cols : ℤ) - 2 else ⌊p.1⌋)
    (hx2 : x2 = if ⌊p.1⌋ ≥ (m.cols : ℤ) - 1 then (m.cols : ℤ) - 1 else ⌊p.1⌋ + 1)
    (hy1 : y1 = if ⌊p.2⌋ ≥ (m.rows : ℤ) - 1 then (m.rows : ℤ) - 2 else ⌊p.2⌋)
    (hy2 : y2 = if ⌊p.2⌋ ≥ (m.rows : ℤ) - 1 then (m.rows : ℤ) - 1 else ⌊p.2⌋ + 1)
    (h11 : m.inside y1 x1 = true) (h12 : m.inside y1 x2 = true)
    (h21 : m.inside y2 x1 = true) (h22 : m.inside y2 x2 = true) :
    m.interpolate p = Except.ok
      ((((y2 : ℝ) - p.2) / ((y2 : ℝ) - (y1 : ℝ))) *
          ((((x2 : ℝ) - p.1) / ((x2 : ℝ) - (x1 : ℝ))) *
              LogOddsToProbability (m.data y1 x1) +
            ((p.1 - (x1 : ℝ)) / ((x2 : ℝ) - (x1 : ℝ))) *
              LogOddsToProbability (m.data y1 x2)) +
        ((p.2 - (y1 : ℝ)) / ((y2 : ℝ) - (y1 : ℝ))) *
          ((((x2 : ℝ) - p.1) / ((x2 : ℝ) - (x1 : ℝ))) *
              LogOddsToProbability (m.data y2 x1) +
            ((p.1 - (x1 : ℝ)) / ((x2 : ℝ) - (x1 : ℝ))) *
              LogOddsToProbability (m.data y2 x2))) := by
  subst hx1 hx2 hy1 hy2
  unfold ProbabilityMap.interpolate
  rw [if_neg (not_not_intro hin)]
  dsimp only
  rw [ProbabilityMap.atCell_of_inside _ _ _ h11,
    ProbabilityMap.atCell_of_inside _ _ _ h12,
    ProbabilityMap.atCell_of_inside _ _ _ h21,
    ProbabilityMap.atCell_of_inside _ _ _ h22]
  rfl

/-- On a grid with at least two rows and two columns, `interpolate`
succeeds at every point passing the continuous bounds test. -/
theorem ProbabilityMap.interpolate_ok (m : ProbabilityMap) (p : Point2)
    (hr : 2 ≤ m.rows) (hc : 2 ≤ m.cols) (hin : m.insidePoint p) :
    ∃ v, m.interpolate p = Except.ok v := by
  obtain ⟨hy0, hyr, hx0, hxc⟩ := hin
  have hrz : (2 : ℤ) ≤ (m.rows : ℤ) := by exact_mod_cast hr
  have hcz : (2 : ℤ) ≤ (m.cols : ℤ) := by exact_mod_cast hc
  have hfx : 0 ≤ ⌊p.1⌋ := Int.floor_nonneg.2 hx0
  have hfy : 0 ≤ ⌊p.2⌋ := Int.floor_nonneg.2 hy0
  have hx1b : 0 ≤ (if ⌊p.1⌋ ≥ (m.cols : ℤ) - 1 then (m.cols : ℤ) - 2 else ⌊p.1⌋) ∧
      (if ⌊p.1⌋ ≥ (m.cols : ℤ) - 1 then (m.cols : ℤ) - 2 else ⌊p.1⌋) <
        (m.cols : ℤ) := by
    split_ifs <;> omega
  have hx2b : 0 ≤ (if ⌊p.1⌋ ≥ (m.cols : ℤ) - 1 then (m.cols : ℤ) - 1 else ⌊p.1⌋ + 1) ∧
      (if ⌊p.1⌋ ≥ (m.cols : ℤ) - 1 then (m.cols : ℤ) - 1 else ⌊p.1⌋ + 1) <
        (m.cols : ℤ) := by
    split_ifs <;> omega
  have hy1b : 0 ≤ (if ⌊p.2⌋ ≥ (m.rows : ℤ) - 1 then (m.rows : ℤ) - 2 else ⌊p.2⌋) ∧
      (if ⌊p.2⌋ ≥ (m.rows : ℤ) - 1 then (m.rows : ℤ) - 2 else ⌊p.2⌋) <
        (m.rows : ℤ) := by
    split_ifs <;> omega
  have hy2b : 0 ≤ (if ⌊p.2⌋ ≥ (m.rows : ℤ) - 1 then (m.rows : ℤ) - 1 else ⌊p.2⌋ + 1) ∧
      (if ⌊p.2⌋ ≥ (m.rows : ℤ) - 1 then (m.rows : ℤ) - 1 else ⌊p.2⌋ + 1) <
        (m.rows : ℤ) := by
    split_ifs <;> omega
  exact ⟨_, m.interpolate_eval p _ _ _ _ ⟨hy0, hyr, hx0, hxc⟩ rfl rfl rfl rfl
    ((m.inside_iff _ _).2 ⟨hy1b.1, hy1b.2, hx1b.1, hx1b.2⟩)
    ((m.inside_iff _ _).2 ⟨hy1b.1, hy1b.2, hx2b.1, hx2b.2⟩)
    ((m.inside_iff _ _).2 ⟨hy2b.1, hy2b.2, hx1b.1, hx1b.2⟩)
    ((m.inside_iff _ _).2 ⟨hy2b.1, hy2b.2, hx2b.1, hx2b.2⟩)⟩

/-- On a grid with fewer than two rows or fewer than two columns, the
edge clamp makes the first neighbour index `-1`, so `interpolate` fails
for every point, including points passing the continuous bounds test. -/
theorem ProbabilityMap.interpolate_error_of_small (m : ProbabilityMap)
    (h : m.rows < 2 ∨ m.cols < 2) (p : Point2) :
    m.interpolate p = Except.error MapError.outOfBounds := by
  by_cases hin : m.insidePoint p
  case neg => exact m.interpolate_of_outside p hin
  unfold ProbabilityMap.interpolate
  rw [if_neg (not_not_intro hin)]
  dsimp only
  obtain ⟨hy0, hyr, hx0, hxc⟩ := hin
  rcases h with hr | hc
  · -- fewer than two rows: rows = 1 and the clamped row index is -1
    have hrow1 : (m.rows : ℤ) = 1 := by
      have h0 : (0 : ℝ) < (m.rows : ℝ) := lt_of_le_of_lt hy0 hyr
      have : 0 < m.rows := by exact_mod_cast h0
      have : m.rows = 1 := by omega
      exact_mod_cast this
    rw [if_pos (show ⌊p.2⌋ ≥ (m.rows : ℤ) - 1 by
      have := Int.floor_nonneg.2 hy0
      omega)]
    rw [ProbabilityMap.atCell_of_outside _ _ _
      ((m.inside_eq_false_iff _ _).2 (by rintro ⟨hge, -, -, -⟩; omega))]
    rfl
  · -- fewer than two columns: cols = 1 and the clamped col index is -1
    have hcol1 : (m.cols : ℤ) = 1 := by
      have h0 : (0 : ℝ) < (m.cols : ℝ) := lt_of_le_of_lt hx0 hxc
      have : 0 < m.cols := by exact_mod_cast h0
      have : m.cols = 1 := by omega
      exact_mod_cast this
    rw [if_pos (show ⌊p.1⌋ ≥ (m.cols : ℤ) - 1 by
      have := Int.floor_nonneg.2 hx0
      omega)]
    rw [ProbabilityMap.atCell_of_outside _ _ _
      ((m.inside_eq_false_iff _ _).2 (by rintro ⟨-, -, hge, -⟩; omega))]
    rfl

/-! ## C9: interpolation always fails on degenerate grids -/

/-- C9: on a grid with fewer than 2 columns or fewer than 2 rows (e.g.
1×1), `interpolate` fails with OutOfBounds for every map point — also
for points satisfying the inside bounds test — because the edge-clamped
neighbour selection produces the index `cols()-2 = -1` (resp.
`rows()-2 = -1`) that the inner `at` call rejects. -/
theorem C9_interpolate_small_grid (m : ProbabilityMap)
    (h : m.rows < 2 ∨ m.cols < 2) (p : Point2) :
    m.interpolate p = Except.error MapError.outOfBounds :=
  m.interpolate_error_of_small h p

theorem C9_interpolate_small_grid_witness :
    (probabilityMapInit 1 1 1 (0, 0)).interpolate (0, 0) =
      Except.error MapError.outOfBounds :=
  C9_interpolate_small_grid (probabilityMapInit 1 1 1 (0, 0))
    (Or.inl (by norm_num [probabilityMapInit])) (0, 0)

/-! ## C2: which inputs make the accessors fail -/

/-- C2 counterexample: on a 1×1 grid the point (0,0) passes the
continuous inside test, yet `interpolate` raises OutOfBounds — so
"interpolate fails iff the point is outside `[0,rows) × [0,cols)`" is
false as stated. -/
theorem C2_counterexample :
    (probabilityMapInit 1 1 1 (0, 0)).insidePoint (0, 0) ∧
      (probabilityMapInit 1 1 1 (0, 0)).interpolate (0, 0) =
        Except.error MapError.outOfBounds := by
  constructor
  · refine ⟨le_refl 0, ?_, le_refl 0, ?_⟩ <;> norm_num [probabilityMapInit]
  · exact (probabilityMapInit 1 1 1 (0, 0)).interpolate_error_of_small
      (Or.inl (by norm_num [probabilityMapInit])) (0, 0)

/-- C2 (amended): `at` and `update` fail with OutOfBounds exactly when
the integer cell is out of bounds; and on grids with at least two rows
and two columns, `interpolate` fails with OutOfBounds exactly when the
continuous point is outside `[0,rows) × [0,cols)` (on 1-row or 1-column
grids `interpolate` also fails at inside points — see the
counterexample). -/
theorem C2_bounds_error_iff (m : ProbabilityMap) (row col : ℤ) (prob : ℝ)
    (p : Point2) :
    (m.atCell row col = Except.error MapError.outOfBounds ↔
        m.inside row col = false) ∧
      ((m.update row col prob).2 = some MapError.outOfBounds ↔
        m.inside row col = false) ∧
      (2 ≤ m.rows → 2 ≤ m.cols →
        (m.interpolate p = Except.error MapError.outOfBounds ↔
          ¬ m.insidePoint p)) := by
  refine ⟨?_, ?_, ?_⟩
  · unfold ProbabilityMap.atCell
    cases hb : m.inside row col <;> simp [hb]
  · unfold ProbabilityMap.update
    cases hb : m.inside row col <;> simp [hb]
  · intro hr hc
    constructor
    · intro herr hin
      obtain ⟨v, hv⟩ := m.interpolate_ok p hr hc hin
      rw [hv] at herr
      exact Except.noConfusion herr
    · exact m.interpolate_of_outside p

theorem C2_bounds_error_iff_witness :
    ((probabilityMapInit 2 2 1 (0, 0)).atCell 0 0 =
        Except.error MapError.outOfBounds ↔
      (probabilityMapInit 2 2 1 (0, 0)).inside 0 0 = false) ∧
    ((probabilityMapInit 2 2 1 (0, 0)).interpolate (1 / 2, 1 / 2) =
        Except.error MapError.outOfBounds ↔
      ¬ (probabilityMapInit 2 2 1 (0, 0)).insidePoint (1 / 2, 1 / 2)) :=
  ⟨(C2_bounds_error_iff (probabilityMapInit 2 2 1 (0, 0)) 0 0 (1 / 2)
      (1 / 2, 1 / 2)).1,
   (C2_bounds_error_iff (probabilityMapInit 2 2 1 (0, 0)) 0 0 (1 / 2)
      (1 / 2, 1 / 2)).2.2
      (by norm_num [probabilityMapInit]) (by norm_num [probabilityMapInit])⟩

/-! ## C3: interpolation at exact integer grid points -/

/-- Pure arithmetic of the bilinear blend: when the sample point sits on
the first column pair and first row pair, the blend returns the first
value. -/
theorem bilinear_pick_11 (A B C D xr yr x1r x2r y1r y2r : ℝ)
    (hx : x2r - x1r = 1) (hy : y2r - y1r = 1) (hxp : xr = x1r) (hyp : yr = y1r) :
    ((y2r - yr) / (y2r - y1r)) *
        (((x2r - xr) / (x2r - x1r)) * A + ((xr - x1r) / (x2r - x1r)) * B) +
      ((yr - y1r) / (y2r - y1r)) *
        (((x2r - xr) / (x2r - x1r)) * C + ((xr - x1r) / (x2r - x1r)) * D) = A := by
  subst hxp hyp
  rw [hx, hy]
  simp

/-- Bilinear blend at the second column, first row: returns `B`. -/
theorem bilinear_pick_12 (A B C D xr yr x1r x2r y1r y2r : ℝ)
    (hx : x2r - x1r = 1) (hy : y2r - y1r = 1) (hxp : xr = x2r) (hyp : yr = y1r) :
    ((y2r - yr) / (y2r - y1r)) *
        (((x2r - xr) / (x2r - x1r)) * A + ((xr - x1r) / (x2r - x1r)) * B) +
      ((yr - y1r) / (y2r - y1r)) *
        (((x2r - xr) / (x2r - x1r)) * C + ((xr - x1r) / (x2r - x1r)) * D) = B := by
  subst hxp hyp
  rw [hx, hy]
  simp

/-- Bilinear blend at the first column, second row: returns `C`. -/
theorem bilinear_pick_21 (A B C D xr yr x1r x2r y1r y2r : ℝ)
    (hx : x2r - x1r = 1) (hy : y2r - y1r = 1) (hxp : xr = x1r) (hyp : yr = y2r) :
    ((y2r - yr) / (y2r - y1r)) *
        (((x2r - xr) / (x2r - x1r)) * A + ((xr - x1r) / (x2r - x1r)) * B) +
      ((yr - y1r) / (y2r - y1r)) *
        (((x2r - xr) / (x2r - x1r)) * C + ((xr - x1r) / (x2r - x1r)) * D) = C := by
  subst hxp hyp
  rw [hx, hy]
  simp

/-- Bilinear blend at the second column, second row: returns `D`. -/
theorem bilinear_pick_22 (A B C D xr yr x1r x2r y1r y2r : ℝ)
    (hx : x2r - x1r = 1) (hy : y2r - y1r = 1) (hxp : xr = x2r) (hyp : yr = y2r) :
    ((y2r - yr) / (y2r - y1r)) *
        (((x2r - xr) / (x2r - x1r)) * A + ((xr - x1r) / (x2r - x1r)) * B) +
      ((yr - y1r) / (y2r - y1r)) *
        (((x2r - xr) / (x2r - x1r)) * C + ((xr - x1r) / (x2r - x1r)) * D) = D := by
  subst hxp hyp
  rw [hx, hy]
  simp

/-- C3 counterexample: on a 1×1 grid the integer cell (0,0) is in
bounds and `at(0,0)` succeeds with probability 1/2, yet `interpolate`
at the exact integer map point (0,0) fails with OutOfBounds instead of
returning the same value. -/
theorem C3_counterexample :
    (probabilityMapInit 1 1 1 (0, 0)).atCell 0 0 = Except.ok (1 / 2) ∧
      (probabilityMapInit 1 1 1 (0, 0)).interpolate
          (((0 : ℤ) : ℝ), ((0 : ℤ) : ℝ)) =
        Except.error MapError.outOfBounds := by
  constructor
  · rw [ProbabilityMap.atCell_of_inside _ _ _ (by decide)]
    dsimp only [probabilityMapInit]
    rw [LogOddsToProbability_zero]
  · exact (probabilityMapInit 1 1 1 (0, 0)).interpolate_error_of_small
      (Or.inl (by norm_num [probabilityMapInit])) _

/-- C3 (amended): on every grid with at least two rows and two columns,
for every in-bounds integer cell `(r, c)`, `interpolate` at the exact
integer map point `(c, r)` returns exactly the same result as
`at(r, c)` — including at the last row and last column, where the 2×2
neighbour quartet is edge-clamped.  (The unrestricted claim fails on
1-row or 1-column grids; see the counterexample.) -/
theorem C3_interpolate_exact (m : ProbabilityMap) (r c : ℤ)
    (hrows : 2 ≤ m.rows) (hcols : 2 ≤ m.cols)
    (h0 : 0 ≤ r) (h1 : r < (m.rows : ℤ)) (h2 : 0 ≤ c) (h3 : c < (m.cols : ℤ)) :
    m.interpolate ((c : ℝ), (r : ℝ)) = m.atCell r c := by
  have hrz : (2 : ℤ) ≤ (m.rows : ℤ) := by exact_mod_cast hrows
  have hcz : (2 : ℤ) ≤ (m.cols : ℤ) := by exact_mod_cast hcols
  have hin : m.insidePoint ((c : ℝ), (r : ℝ)) := by
    refine ⟨?_, ?_, ?_, ?_⟩
    · show (0 : ℝ) ≤ (r : ℝ); exact_mod_cast h0
    · show (r : ℝ) < (m.rows : ℝ); exact_mod_cast h1
    · show (0 : ℝ) ≤ (c : ℝ); exact_mod_cast h2
    · show (c : ℝ) < (m.cols : ℝ); exact_mod_cast h3
  have hrc : m.inside r c = true := (m.inside_iff _ _).2 ⟨h0, h1, h2, h3⟩
  rw [ProbabilityMap.atCell_of_inside _ _ _ hrc]
  by_cases hA : c ≥ (m.cols : ℤ) - 1
  · have hc' : c = (m.cols : ℤ) - 1 := by omega
    by_cases hB : r ≥ (m.rows : ℤ) - 1
    · -- last column, last row: the blend picks the (y2, x2) value
      have hr' : r = (m.rows : ℤ) - 1 := by omega
      rw [m.interpolate_eval ((c : ℝ), (r : ℝ))
        ((m.cols : ℤ) - 2) ((m.cols : ℤ) - 1)
        ((m.rows : ℤ) - 2) ((m.rows : ℤ) - 1) hin
        (by dsimp only; rw [Int.floor_intCast, if_pos hA])
        (by dsimp only; rw [Int.floor_intCast, if_pos hA])
        (by dsimp only; rw [Int.floor_intCast, if_pos hB])
        (by dsimp only; rw [Int.floor_intCast, if_pos hB])
        ((m.inside_iff _ _).2 (by omega)) ((m.inside_iff _ _).2 (by omega))
        ((m.inside_iff _ _).2 (by omega)) ((m.inside_iff _ _).2 (by omega))]
      rw [hc', hr']
      exact congrArg Except.ok (bilinear_pick_22 _ _ _ _ _ _ _ _ _ _
        (by push_cast; ring) (by push_cast; ring)
        (by push_cast; ring) (by push_cast; ring))
    · -- last column, interior row: the blend picks the (y1, x2) value
      have hfr : ⌊(r : ℝ)⌋ = r := Int.floor_intCast r
      rw [m.interpolate_eval ((c : ℝ), (r : ℝ))
        ((m.cols : ℤ) - 2) ((m.cols : ℤ) - 1) r (r + 1) hin
        (by dsimp only; rw [Int.floor_intCast, if_pos hA])
        (by dsimp only; rw [Int.floor_intCast, if_pos hA])
        (by dsimp only; rw [Int.floor_intCast, if_neg hB])
        (by dsimp only; rw [Int.floor_intCast, if_neg hB])
        ((m.inside_iff _ _).2 (by omega)) ((m.inside_iff _ _).2 (by omega))
        ((m.inside_iff _ _).2 (by omega)) ((m.inside_iff _ _).2 (by omega))]
      rw [hc']
      exact congrArg Except.ok (bilinear_pick_12 _ _ _ _ _ _ _ _ _ _
        (by push_cast; ring) (by push_cast; ring)
        (by push_cast; ring) (by push_cast; ring))
  · by_cases hB : r ≥ (m.rows : ℤ) - 1
    · -- interior column, last row: the blend picks the (y2, x1) value
      have hr' : r = (m.rows : ℤ) - 1 := by omega
      rw [m.interpolate_eval ((c : ℝ), (r : ℝ))
        c (c + 1) ((m.rows : ℤ) - 2) ((m.rows : ℤ) - 1) hin
        (by dsimp only; rw [Int.floor_intCast, if_neg hA])
        (by dsimp only; rw [Int.floor_intCast, if_neg hA])
        (by dsimp only; rw [Int.floor_intCast, if_pos hB])
        (by dsimp only; rw [Int.floor_intCast, if_pos hB])
        ((m.inside_iff _ _).2 (by omega)) ((m.inside_iff _ _).2 (by omega))
        ((m.inside_iff _ _).2 (by omega)) ((m.inside_iff _ _).2 (by omega))]
      rw [hr']
      exact congrArg Except.ok (bilinear_pick_21 _ _ _ _ _ _ _ _ _ _
        (by push_cast; ring) (by push_cast; ring)
        (by push_cast; ring) (by push_cast; ring))
    · -- interior cell: the blend picks the (y1, x1) value
      rw [m.interpolate_eval ((c : ℝ), (r : ℝ)) c (c + 1) r (r + 1) hin
        (by dsimp only; rw [Int.floor_intCast, if_neg hA])
        (by dsimp only; rw [Int.floor_intCast, if_neg hA])
        (by dsimp only; rw [Int.floor_intCast, if_neg hB])
        (by dsimp only; rw [Int.floor_intCast, if_neg hB])
        ((m.inside_iff _ _).2 (by omega)) ((m.inside_iff _ _).2 (by omega))
        ((m.inside_iff _ _).2 (by omega)) ((m.inside_iff _ _).2 (by omega))]
      exact congrArg Except.ok (bilinear_pick_11 _ _ _ _ _ _ _ _ _ _
        (by push_cast; ring) (by push_cast; ring)
        (by push_cast; ring) (by push_cast; ring))

theorem C3_interpolate_exact_witness :
    (probabilityMapInit 2 2 1 (0, 0)).interpolate
        (((0 : ℤ) : ℝ), ((0 : ℤ) : ℝ)) =
      (probabilityMapInit 2 2 1 (0, 0)).atCell 0 0 :=
  C3_interpolate_exact (probabilityMapInit 2 2 1 (0, 0)) 0 0
    (by norm_num [probabilityMapInit]) (by norm_num [probabilityMapInit])
    (by norm_num) (by norm_num [probabilityMapInit])
    (by norm_num) (by norm_num [probabilityMapInit])

/-! ## C5: the occupancy-grid byte formula -/

theorem cppTruncToInt_of_nonneg (x : ℝ) (h : 0 ≤ x) : cppTruncToInt x = ⌊x⌋ :=
  if_pos h

/-- C5 counterexample: with a cell holding log-odds `log 3`
(probability 3/4, reachable e.g. via `load`), the code's truncating
`(int)` cast yields byte `(int)(255 - 191.25) = 63`, while the spec's
formula `255 - round(255 × 3/4) = 255 - 191 = 64` differs. -/
theorem C5_counterexample :
    ProbabilityMap.occupancyGrid ⟨1, 1, 1, (0, 0), fun _ _ => Real.log 3⟩ =
        [[63]] ∧
      occupancyGridSpecFormula ⟨1, 1, 1, (0, 0), fun _ _ => Real.log 3⟩ =
        [[64]] := by
  have hP : LogOddsToProbability (Real.log 3) = 3 / 4 := by
    rw [LogOddsToProbability_log 3 (by norm_num)]
    norm_num
  constructor
  · unfold ProbabilityMap.occupancyGrid
    dsimp only
    rw [show List.range 1 = [0] by rfl, List.map_cons, List.map_nil,
      List.map_cons, List.map_nil]
    rw [hP, show (255 : ℝ) - 255 * (3 / 4) = 255 / 4 by norm_num]
    rw [cppTruncToInt_of_nonneg _ (by norm_num)]
    rw [show ⌊(255 / 4 : ℝ)⌋ = 63 from Int.floor_eq_iff.2
      (by constructor <;> norm_num)]
  · unfold occupancyGridSpecFormula
    dsimp only
    rw [show List.range 1 = [0] by rfl, List.map_cons, List.map_nil,
      List.map_cons, List.map_nil]
    rw [hP, round_eq, show (255 : ℝ) * (3 / 4) + 1 / 2 = 767 / 4 by norm_num]
    rw [show ⌊(767 / 4 : ℝ)⌋ = 191 from Int.floor_eq_iff.2
      (by constructor <;> norm_num)]
    norm_num

/-- C5 (amended): every occupancy-grid entry is the truncation
`⌊255 − 255·p⌋` (the C `(int)` cast; equal to the floor because the
value is nonnegative) — not `255 − round(255·p)` — and on a freshly
constructed grid (all probabilities 0.5) every entry is uniformly
`(int)(255 − 127.5) = 127`. -/
theorem C5_occupancy_bytes (m : ProbabilityMap) (r c : ℕ)
    (hr : r < m.rows) (hc : c < m.cols)
    (rows cols : ℕ) (cs : ℝ) (o : Point2) :
    Option.bind m.occupancyGrid[r]? (fun rowList => rowList[c]?) =
        some ⌊255 - 255 * LogOddsToProbability (m.data (r : ℤ) (c : ℤ))⌋ ∧
      (probabilityMapInit rows cols cs o).occupancyGrid =
        (List.range rows).map (fun _ => (List.range cols).map fun _ => 127) := by
  constructor
  · unfold ProbabilityMap.occupancyGrid
    rw [List.getElem?_map, List.getElem?_range hr, Option.map_some',
      Option.some_bind, List.getElem?_map, List.getElem?_range hc,
      Option.map_some']
    rw [cppTruncToInt_of_nonneg _ (by
      have h1 := LogOddsToProbability_lt_one (m.data (r : ℤ) (c : ℤ))
      linarith)]
  · have hval : cppTruncToInt (255 - 255 * LogOddsToProbability 0) = 127 := by
      rw [LogOddsToProbability_zero,
        show (255 : ℝ) - 255 * (1 / 2) = 255 / 2 by norm_num]
      rw [cppTruncToInt_of_nonneg _ (by norm_num)]
      exact Int.floor_eq_iff.2 (by constructor <;> norm_num)
    simp [ProbabilityMap.occupancyGrid, probabilityMapInit, hval]

theorem C5_occupancy_bytes_witness :
    Option.bind (probabilityMapInit 1 1 1 (0, 0)).occupancyGrid[(0 : ℕ)]?
        (fun rowList => rowList[(0 : ℕ)]?) =
      some ⌊255 - 255 *
        LogOddsToProbability ((probabilityMapInit 1 1 1 (0, 0)).data 0 0)⌋ :=
  (C5_occupancy_bytes (probabilityMapInit 1 1 1 (0, 0)) 0 0
    (by norm_num [probabilityMapInit]) (by norm_num [probabilityMapInit])
    1 1 1 (0, 0)).1

/-! ## Line-rasterization loop lemmas -/

/-- One loop iteration with at least one full increment left: emit the
current cell and advance by exactly one unit step. -/
theorem ProbabilityMap.lineLoop_succ_pos (m : ProbabilityMap)
    (sw ew delta : Point2) (fuel : ℕ) (point : Point2) (remaining : ℝ)
    (h : 1 ≤ remaining) :
    m.lineLoop sw ew delta (fuel + 1) point remaining =
      m.lineEmit sw ew point ++
        m.lineLoop sw ew delta fuel
          (point.1 + delta.1, point.2 + delta.2) (remaining - 1) := by
  conv_lhs => unfold ProbabilityMap.lineLoop
  rw [if_neg (by linarith : ¬ remaining ≤ 0)]
  dsimp only
  rw [if_neg (by linarith : ¬ remaining < 1)]
  rw [one_mul, one_mul]

/-- The final loop iteration: once the remaining distance is exhausted,
the current cell is emitted and the loop breaks. -/
theorem ProbabilityMap.lineLoop_succ_last (m : ProbabilityMap)
    (sw ew delta : Point2) (fuel : ℕ) (point : Point2) (remaining : ℝ)
    (h : remaining ≤ 0) :
    m.lineLoop sw ew delta (fuel + 1) point remaining =
      m.lineEmit sw ew point := by
  unfold ProbabilityMap.lineLoop
  rw [if_pos h, List.append_nil]

/-- The loop emits exactly the in-bounds cells of the full visited
trajectory, in order: `lineLoop` is `lineVisited` filtered through
`lineEmit`. -/
theorem ProbabilityMap.lineLoop_eq_visited (m : ProbabilityMap)
    (sw ew delta : Point2) :
    ∀ (fuel : ℕ) (point : Point2) (remaining : ℝ),
      m.lineLoop sw ew delta fuel point remaining =
        (lineVisited delta fuel point remaining).flatMap (m.lineEmit sw ew)
  | 0, _, _ => rfl
  | fuel + 1, point, remaining => by
    unfold ProbabilityMap.lineLoop lineVisited
    rw [List.flatMap_cons]
    by_cases h : remaining ≤ 0
    · rw [if_pos h, if_pos h]
      rfl
    · rw [if_neg h, if_neg h]
      dsimp only
      rw [m.lineLoop_eq_visited sw ew delta fuel]

/-- With enough fuel, the number of visited points is exactly one more
than the number of unit advances `⌈remaining⌉` (and 1 when the span is
not positive): the walk always runs the full dominant-axis length. -/
theorem lineVisited_length (delta : Point2) :
    ∀ (fuel : ℕ) (point : Point2) (remaining : ℝ),
      (if remaining ≤ 0 then 1 else ⌈remaining⌉.toNat + 1) ≤ fuel →
      (lineVisited delta fuel point remaining).length =
        (if remaining ≤ 0 then 1 else ⌈remaining⌉.toNat + 1)
  | 0, _, remaining, hfuel => by
    split_ifs at hfuel <;> omega
  | fuel + 1, point, remaining, hfuel => by
    unfold lineVisited
    by_cases h : remaining ≤ 0
    · rw [if_pos h, if_pos h]
      rfl
    · have hpos : 0 < remaining := lt_of_not_le h
      have hceil : 0 < ⌈remaining⌉ := Int.ceil_pos.2 hpos
      rw [if_neg h] at hfuel
      rw [if_neg h, if_neg h]
      dsimp only
      by_cases h1 : remaining < 1
      · rw [if_pos h1]
        have hc1 : ⌈remaining⌉ = 1 := by
          have h2 : ⌈remaining⌉ ≤ 1 :=
            Int.ceil_le.2 (by push_cast; linarith)
          omega
        have hnext := lineVisited_length delta fuel
          (point.1 + remaining * delta.1, point.2 + remaining * delta.2)
          (remaining - remaining) (by
            rw [sub_self, if_pos (le_refl (0 : ℝ))]
            omega)
        rw [sub_self, if_pos (le_refl (0 : ℝ))] at hnext
        rw [sub_self]
        simp only [List.length_cons, hnext]
        omega
      · have hge1 : (1 : ℝ) ≤ remaining := le_of_not_lt h1
        rw [if_neg h1]
        have hceil1 : ⌈remaining - 1⌉ = ⌈remaining⌉ - 1 := by
          exact_mod_cast Int.ceil_sub_int remaining 1
        have hfuel2 : (if remaining - 1 ≤ 0 then 1
            else ⌈remaining - 1⌉.toNat + 1) ≤ fuel := by
          split_ifs <;> omega
        have hnext := lineVisited_length delta fuel
          (point.1 + 1 * delta.1, point.2 + 1 * delta.2) (remaining - 1) hfuel2
        simp only [List.length_cons, hnext]
        by_cases h2 : remaining - 1 ≤ 0
        · have hle : ⌈remaining⌉ ≤ 1 :=
            Int.ceil_le.2 (by push_cast; linarith)
          rw [if_pos h2]
          omega
        · rw [if_neg h2]
          have hpos2 : 0 < ⌈remaining - 1⌉ := Int.ceil_pos.2 (by linarith)
          omega

/-- The iteration count of the `line` loop, as a function of the
dominant-axis span `increments_remaining`. -/
noncomputable def lineSteps (remaining : ℝ) : ℕ :=
  if remaining ≤ 0 then 1 else ⌈remaining⌉.toNat + 1

/-! ## C6: no early termination at out-of-bounds cells -/

/-- C6: the walk of `line` never stops early at an out-of-bounds cell:
(1) its output is exactly the full visited trajectory filtered through
the per-cell emitter (`lineEmit` emits nothing outside the grid, one
cell inside it), so in-bounds cells reached after an out-of-bounds
stretch are still emitted; (2) the trajectory length is the full
dominant-axis iteration count `lineSteps`; (3) the trajectory is
entirely independent of the grid dimensions and cell data. -/
theorem C6_line_no_early_termination (m : ProbabilityMap) (sw ew : Point2)
    (rows cols : ℕ) (data : ℤ → ℤ → ℝ) :
    m.line sw ew = (m.lineTrajectory sw ew).flatMap (m.lineEmit sw ew) ∧
      (m.lineTrajectory sw ew).length = lineSteps (m.dominantSpan sw ew) ∧
      ProbabilityMap.lineTrajectory
          ⟨rows, cols, m.cellSize, m.origin, data⟩ sw ew =
        m.lineTrajectory sw ew := by
  refine ⟨?_, ?_, rfl⟩
  · unfold ProbabilityMap.line ProbabilityMap.lineTrajectory
      ProbabilityMap.lineDelta ProbabilityMap.dominantSpan
    dsimp only
    rw [m.lineLoop_eq_visited sw ew]
  · unfold ProbabilityMap.lineTrajectory lineSteps
    exact lineVisited_length _ _ _ _ (by split_ifs <;> omega)

/-! ## C4: Scenario C, a horizontal beam across the 10×10 grid -/

/-- The row/col part of one emitted cell, once the floors of the current
point and the bounds check are known. -/
theorem ProbabilityMap.lineEmit_rowcol (m : ProbabilityMap)
    (sw ew : Point2) (p : Point2) (u v : ℤ)
    (hu : ⌊p.1⌋ = u) (hv : ⌊p.2⌋ = v) (hin : m.inside v u = true) :
    (m.lineEmit sw ew p).map (fun cell => (cell.row, cell.col)) = [(v, u)] := by
  unfold ProbabilityMap.lineEmit
  dsimp only
  rw [hu, hv, if_pos hin]
  rfl

/-- The horizontal walk of Scenario C: starting in row 0 at column
`u = ⌊x⌋` with unit step `(1, 0)` and `n` whole increments remaining,
the loop emits cells `(0, u), (0, u+1), …, (0, u+n)`. -/
theorem lineLoop_walk_row0 (sw ew : Point2) :
    ∀ (n : ℕ) (x : ℝ) (u : ℤ), ⌊x⌋ = u → 0 ≤ u → u + (n : ℤ) < 10 →
      ((probabilityMapInit 10 10 0.1 (0, 0)).lineLoop sw ew (1, 0) (n + 1)
          (x, 0.5) ((n : ℕ) : ℝ)).map (fun cell => (cell.row, cell.col)) =
        (List.range (n + 1)).map (fun (i : ℕ) => ((0 : ℤ), u + (i : ℤ)))
  | 0, x, u, hu, hu0, hun => by
    rw [ProbabilityMap.lineLoop_succ_last _ _ _ _ _ _ _ (by norm_num)]
    rw [ProbabilityMap.lineEmit_rowcol _ sw ew (x, 0.5) u 0
      (by exact hu)
      (by show ⌊(0.5 : ℝ)⌋ = (0 : ℤ); rw [Int.floor_eq_iff]; constructor <;> norm_num)
      (by
        rw [ProbabilityMap.inside_iff]
        refine ⟨le_refl 0, by norm_num [probabilityMapInit], hu0, ?_⟩
        have : ((probabilityMapInit 10 10 0.1 (0, 0)).cols : ℤ) = 10 := by
          norm_num [probabilityMapInit]
        omega)]
    rw [show List.range 1 = [0] from rfl]
    simp
  | n + 1, x, u, hu, hu0, hun => by
    have hn0 : (0 : ℝ) ≤ (n : ℝ) := Nat.cast_nonneg n
    rw [ProbabilityMap.lineLoop_succ_pos _ _ _ _ _ _ _
      (by push_cast; linarith)]
    rw [List.map_append]
    rw [ProbabilityMap.lineEmit_rowcol _ sw ew (x, 0.5) u 0
      (by exact hu)
      (by show ⌊(0.5 : ℝ)⌋ = (0 : ℤ); rw [Int.floor_eq_iff]; constructor <;> norm_num)
      (by
        rw [ProbabilityMap.inside_iff]
        refine ⟨le_refl 0, by norm_num [probabilityMapInit], hu0, ?_⟩
        have h10 : ((probabilityMapInit 10 10 0.1 (0, 0)).cols : ℤ) = 10 := by
          norm_num [probabilityMapInit]
        omega)]
    rw [show ((x, (0.5 : ℝ)).1 + ((1 : ℝ), (0 : ℝ)).1,
        (x, (0.5 : ℝ)).2 + ((1 : ℝ), (0 : ℝ)).2) = (x + 1, (0.5 : ℝ)) from by
      dsimp only
      rw [add_zero]]
    rw [show (((n + 1 : ℕ)) : ℝ) - 1 = ((n : ℕ) : ℝ) from by push_cast; ring]
    rw [lineLoop_walk_row0 sw ew n (x + 1) (u + 1)
      (by rw [Int.floor_add_one, hu]) (by omega) (by push_cast at hun ⊢; omega)]
    rw [List.singleton_append]
    conv_rhs => rw [List.range_succ_eq_map, List.map_cons, List.map_map]
    congr 1
    · simp
    · apply List.map_congr_left
      intro i hi
      simp only [Function.comp_apply]
      rw [Prod.mk.injEq]
      exact ⟨rfl, by push_cast; ring⟩

/-- C4: Scenario C — on the 10×10 grid with `cellSize = 0.1` and
`origin = (0, 0)`, `line((0.05, 0.05), (0.95, 0.05))` returns exactly
10 cells, all in row 0, with columns 0 through 9 in increasing order. -/
theorem C4_line_scenario :
    (((probabilityMapInit 10 10 0.1 (0, 0)).line (0.05, 0.05)
          (0.95, 0.05)).map (fun cell => (cell.row, cell.col))) =
      [(0, 0), (0, 1), (0, 2), (0, 3), (0, 4), (0, 5), (0, 6), (0, 7), (0, 8),
        (0, 9)] := by
  have hfw1 : (probabilityMapInit 10 10 0.1 (0, 0)).fromWorld (0.05, 0.05) =
      ((0.5 : ℝ), (0.5 : ℝ)) := by
    unfold ProbabilityMap.fromWorld probabilityMapInit
    dsimp only
    rw [Prod.mk.injEq]
    constructor <;> norm_num
  have hfw2 : (probabilityMapInit 10 10 0.1 (0, 0)).fromWorld (0.95, 0.05) =
      ((9.5 : ℝ), (0.5 : ℝ)) := by
    unfold ProbabilityMap.fromWorld probabilityMapInit
    dsimp only
    rw [Prod.mk.injEq]
    constructor <;> norm_num
  unfold ProbabilityMap.line
  rw [hfw1, hfw2]
  dsimp only
  rw [show |(9.5 : ℝ) - 0.5| = 9 from by
    rw [show (9.5 : ℝ) - 0.5 = 9 by norm_num]
    exact abs_of_pos (by norm_num)]
  rw [show |(0.5 : ℝ) - 0.5| = 0 from by rw [sub_self, abs_zero]]
  rw [if_pos (show (9 : ℝ) > 0 by norm_num),
    if_pos (show (9 : ℝ) > 0 by norm_num)]
  rw [if_pos (show (0.5 : ℝ) < 9.5 by norm_num)]
  rw [if_neg (show ¬ (0.5 : ℝ) < 0.5 by norm_num)]
  rw [show ((-1 : ℝ)) * (0 / 9) = 0 by norm_num]
  rw [show (⌈(9 : ℝ)⌉.toNat + 1 : ℕ) = 9 + 1 from by simp]
  rw [show (9 : ℝ) = ((9 : ℕ) : ℝ) by norm_num]
  rw [lineLoop_walk_row0 (0.05, 0.05) (0.95, 0.05) 9 0.5 0
    (by rw [Int.floor_eq_iff]; constructor <;> norm_num)
    (le_refl 0) (by norm_num)]
  decide

end Mapping
